import Mathlib

/-!
Verification development for the VAULT personal media vault.

The definitions below are a shallow embedding of the client-side search and
reconciliation pipeline of `src/app/page.tsx`, the semantic-search endpoint
and the token allowlist (`src/unnamed/part_002`, `src/lib/allowedEmails.ts`).
JavaScript numbers used for match scores are modelled as rationals, record
timestamps as natural numbers (the code only compares them), and TypeScript
fields of type `T | null` that may be absent as `Option (Option T)`.
-/

set_option maxRecDepth 10000

/-- Classical unit-cost Levenshtein distance (from Mathlib), specialised to
lists of characters.  The development proves that the repository's
dynamic-programming implementation computes exactly this function. -/
def classicalLevenshtein (xs ys : List Char) : Nat :=
  levenshtein Levenshtein.defaultCost xs ys

namespace Vault

/-- Model of the `Photo` row type (`src/app/page.tsx` lines 9-25).  A
TypeScript field `f?: T | null` is modelled as `Option (Option T)`: the outer
`Option` is key presence in the JavaScript object (`none` = key absent), the
inner one is nullability (`some none` = `null`).  `created_at` is a
natural-number timestamp: the code only ever compares `Date` values parsed
from it, and parsing preserves order. -/
structure Photo where
  id : String
  image_url : String := ""
  created_at : Nat := 0
  storage_path : Option (Option String) := none
  source_url : Option (Option String) := none
  caption : Option (Option String) := none
  tags : Option (Option (List String)) := none
  colors : Option (Option (List String)) := none
  embedding : Option (Option (List Rat)) := none
  content_type : Option (Option String) := none
  domain_tags : Option (Option (List String)) := none
  has_people : Option (Option Bool) := none
  people_count : Option (Option Nat) := none
  is_screenshot : Option (Option Bool) := none
  vibe_tags : Option (Option (List String)) := none
deriving DecidableEq

/-- JavaScript `x ?? dflt` on a doubly-optional field: both an absent key and
a `null` value fall back to the default. -/
def coalesce {α : Type} (o : Option (Option α)) (dflt : α) : α :=
  o.join.getD dflt

/-- Inner loop of the Levenshtein recurrence: given `f = levAux as`, the
function `levGo a f` computes the distance from `a :: as`, by structural
recursion on the second string. -/
def levGo (a : Char) (f : List Char → Nat) : List Char → Nat
  | [] => f [] + 1
  | b :: bs =>
    min (min (f (b :: bs) + 1) (levGo a f bs + 1))
      (f bs + if a = b then 0 else 1)

/-- Levenshtein distance on character lists.  The source
(`src/app/page.tsx` lines 37-57) fills the classical dynamic-programming
table `dp[i][j]` with unit costs; this structural recursion computes the same
recurrence (`levAux_eq_classical` below certifies it against Mathlib's
classical edit distance). -/
def levAux : List Char → List Char → Nat
  | [] => fun bs => bs.length
  | a :: as => levGo a (levAux as)

/-- `levenshtein` from `src/app/page.tsx` lines 37-57: short-circuits equal
strings to `0` (the `a === b` check), otherwise runs the DP over the
characters; the `al === 0` / `bl === 0` shortcuts are the base rows of the
table. -/
def levenshtein (a b : String) : Nat :=
  if a = b then 0 else levAux a.data b.data

/-- `similarity` from `src/app/page.tsx` lines 59-64: normalized edit
distance `1 - dist/len` with the explicit `len === 0` edge case returning
`0`. -/
def similarity (a b : String) : ℚ :=
  let len := max a.length b.length
  if len = 0 then 0 else 1 - (levenshtein a b : ℚ) / (len : ℚ)

theorem levAux_nil (bs : List Char) : levAux [] bs = bs.length := rfl

theorem levAux_nil_right (as : List Char) : levAux as [] = as.length := by
  induction as with
  | nil => rfl
  | cons a as ih => simp [levAux, levGo, ih]

theorem levAux_cons_cons (a : Char) (as : List Char) (b : Char) (bs : List Char) :
    levAux (a :: as) (b :: bs) =
      min (min (levAux as (b :: bs) + 1) (levAux (a :: as) bs + 1))
        (levAux as bs + if a = b then 0 else 1) := rfl

theorem levAux_self (l : List Char) : levAux l l = 0 := by
  induction l with
  | nil => rfl
  | cons c l ih => rw [levAux_cons_cons]; simp [ih]

theorem levAux_le_max (as : List Char) :
    ∀ bs : List Char, levAux as bs ≤ max as.length bs.length := by
  induction as with
  | nil => intro bs; rw [levAux_nil]; omega
  | cons a as ih =>
    intro bs
    cases bs with
    | nil => rw [levAux_nil_right]; simp
    | cons b bs =>
      rw [levAux_cons_cons]
      have h3 := ih bs
      have hcost : (if a = b then 0 else 1) ≤ 1 := by by_cases h : a = b <;> simp [h]
      simp only [List.length_cons]
      omega

theorem levAux_symm (as : List Char) : ∀ bs : List Char, levAux as bs = levAux bs as := by
  induction as with
  | nil => intro bs; rw [levAux_nil, levAux_nil_right]
  | cons a as ih =>
    intro bs
    induction bs with
    | nil => rw [levAux_nil, levAux_nil_right]
    | cons b bs ihb =>
      rw [levAux_cons_cons, levAux_cons_cons, ih (b :: bs), ihb, ih bs]
      have hcost : (if a = b then 0 else 1) = (if b = a then 0 else 1) := by
        by_cases h : a = b
        · simp [h]
        · have h2 : ¬ b = a := fun hba => h hba.symm
          simp [h, h2]
      rw [hcost]
      omega

theorem classicalLev_nil_left (bs : List Char) : classicalLevenshtein [] bs = bs.length := by
  induction bs with
  | nil => simp [classicalLevenshtein]
  | cons b bs ih =>
    simp only [classicalLevenshtein] at ih ⊢
    rw [levenshtein_nil_cons]
    simp [ih, Nat.add_comm]

theorem classicalLev_nil_right (as : List Char) : classicalLevenshtein as [] = as.length := by
  induction as with
  | nil => simp [classicalLevenshtein]
  | cons a as ih =>
    simp only [classicalLevenshtein] at ih ⊢
    rw [levenshtein_cons_nil]
    simp [ih, Nat.add_comm]

theorem levAux_eq_classical (as : List Char) :
    ∀ bs : List Char, levAux as bs = classicalLevenshtein as bs := by
  induction as with
  | nil => intro bs; rw [levAux_nil, classicalLev_nil_left]
  | cons a as ih =>
    intro bs
    induction bs with
    | nil => rw [levAux_nil_right, classicalLev_nil_right]
    | cons b bs ihb =>
      rw [levAux_cons_cons, ih (b :: bs), ihb, ih bs]
      simp only [classicalLevenshtein]
      rw [levenshtein_cons_cons]
      simp only [Levenshtein.defaultCost_delete, Levenshtein.defaultCost_insert,
        Levenshtein.defaultCost_substitute]
      by_cases h : a = b <;> simp [h] <;> omega

theorem levenshtein_eq_classical (a b : String) :
    levenshtein a b = classicalLevenshtein a.data b.data := by
  by_cases h : a = b
  · subst h
    rw [← levAux_eq_classical, levAux_self]
    simp [levenshtein]
  · simp [levenshtein, h, levAux_eq_classical]

theorem levenshtein_le_max (a b : String) :
    levenshtein a b ≤ max a.length b.length := by
  by_cases h : a = b
  · simp [levenshtein, h]
  · simp only [levenshtein, h, if_false]
    exact levAux_le_max a.data b.data

theorem levenshtein_symm (a b : String) : levenshtein a b = levenshtein b a := by
  by_cases h : a = b
  · subst h; rfl
  · have h2 : ¬ b = a := fun hba => h hba.symm
    simp only [levenshtein, h, h2, if_false]
    exact levAux_symm a.data b.data

/-- JavaScript `haystack.includes(needle)`: contiguous-substring test. -/
def containsSub (hay needle : String) : Bool :=
  decide (needle.data <:+: hay.data)

/-- JavaScript `String.prototype.toLowerCase`, modelled character-wise (all
data this code base compares is ASCII). -/
def lowerCase (s : String) : String :=
  ⟨s.data.map Char.toLower⟩

/-- JavaScript `String.prototype.trim`: strip leading and trailing
whitespace. -/
def trimWs (s : String) : String :=
  ⟨((s.data.dropWhile Char.isWhitespace).reverse.dropWhile Char.isWhitespace).reverse⟩

/-- Token list of a photo for fuzzy matching (`src/app/page.tsx` lines
201-210): each searchable field is one token (the caption is not split into
words), each tag/color/domain-tag/vibe-tag is one token, the two boolean
flags render as `"people"` / `"screenshot"`, and every token is
lower-cased. -/
def tokensOf (p : Photo) : List String :=
  ([coalesce p.caption ""] ++ coalesce p.tags [] ++ coalesce p.colors [] ++
    [coalesce p.content_type ""] ++ coalesce p.domain_tags [] ++ coalesce p.vibe_tags [] ++
    [if coalesce p.has_people false then "people" else ""] ++
    [if coalesce p.is_screenshot false then "screenshot" else ""]).map lowerCase

/-- Best fuzzy score of a photo (`src/app/page.tsx` lines 212-220),
parametrised by the similarity function so that the short-query claim can
state that no similarity function is ever consulted.  Empty tokens are
skipped; a token containing the query as a substring scores `1`, otherwise
the similarity function scores it; the photo's score is the running
maximum starting from `0`. -/
def fuzzyScoreWith (simFn : String → String → ℚ) (query : String) (p : Photo) : ℚ :=
  (tokensOf p).foldl
    (fun best token =>
      if token = "" then best
      else if containsSub token query then max best 1
      else max best (simFn query token)) 0

/-- `fuzzyScoreWith` instantiated with the repository's `similarity`. -/
def fuzzyScore (query : String) (p : Photo) : ℚ :=
  fuzzyScoreWith similarity query p

/-- Fuzzy match list (`src/app/page.tsx` lines 195-229), parametrised by the
similarity function: empty for note-scoped or exact-phrase queries or
queries shorter than 3 characters; otherwise photos scored, filtered at
threshold `0.42`, and stably sorted by score descending (JavaScript
`Array.sort` is stable, so a stable insertion sort models it). -/
def fuzzyMatchesWith (simFn : String → String → ℚ) (isNoteSearch isExactPhrase : Bool)
    (query : String) (sorted : List Photo) : List Photo :=
  if isNoteSearch || isExactPhrase || query.length < 3 then []
  else
    ((List.insertionSort (fun s t : Photo × ℚ => t.2 ≤ s.2)
        ((sorted.map (fun p => (p, fuzzyScoreWith simFn query p))).filter
          (fun s => (42 : ℚ)/100 ≤ s.2))).map (fun s => s.1))

/-- `fuzzyMatchesWith` instantiated with the repository's `similarity`. -/
def fuzzyMatches (isNoteSearch isExactPhrase : Bool) (query : String)
    (sorted : List Photo) : List Photo :=
  fuzzyMatchesWith similarity isNoteSearch isExactPhrase query sorted

/-- Search haystack of a photo (`src/app/page.tsx` lines 240-257): the
searchable fields plus the long and short date renderings of `created_at`,
joined with spaces and lower-cased.  The `Intl.DateTimeFormat` renderings
are external to the core and appear as the two formatter parameters. -/
def haystackOf (fmtLong fmtShort : Nat → String) (p : Photo) : String :=
  lowerCase (String.intercalate " "
    ([coalesce p.caption ""] ++ coalesce p.tags [] ++ coalesce p.colors [] ++
      [coalesce p.content_type ""] ++ coalesce p.domain_tags [] ++ coalesce p.vibe_tags [] ++
      [if coalesce p.has_people false then "people" else ""] ++
      [if coalesce p.is_screenshot false then "screenshot" else ""] ++
      [fmtLong p.created_at, fmtShort p.created_at]))

/-- Whether character `i` of `l` is a regex word character (`[A-Za-z0-9_]`);
out-of-range positions count as non-word. -/
def isWordAt (l : List Char) (i : Nat) : Bool :=
  match l.get? i with
  | some c => c.isAlphanum || c = '_'
  | none => false

/-- Regex word-boundary `\b` at position `i` (between `l[i-1]` and `l[i]`):
holds iff exactly one side is a word character. -/
def boundaryAt (l : List Char) (i : Nat) : Bool :=
  (if i = 0 then false else isWordAt l (i - 1)) != isWordAt l i

/-- Whether `pat` occurs in `l` starting at position `i`. -/
def matchesAt (pat l : List Char) (i : Nat) : Bool :=
  decide ((l.drop i).take pat.length = pat)

/-- Model of `new RegExp('\\b' + escapeRegExp(term) + '\\b', 'i').test(hay)`
(`src/app/page.tsx` lines 236-238, 259-261): since `escapeRegExp` escapes
every regex metacharacter, the pattern matches the literal phrase between
two word boundaries; caller and haystack are both already lower-cased, which
subsumes the `i` flag for the ASCII data involved. -/
def wordBoundaryTest (phrase hay : String) : Bool :=
  (List.range (hay.data.length + 1)).any
    (fun i => matchesAt phrase.data hay.data i && boundaryAt hay.data i &&
      boundaryAt hay.data (i + phrase.data.length))

/-- Substring / exact-phrase fallback filter (`src/app/page.tsx` lines
231-265).  Empty query (or exact-phrase with empty term) degenerates to the
whole sorted list; exact-phrase queries use the word-boundary regex on the
haystack; anything else is a plain substring test. -/
def fallbackFiltered (fmtLong fmtShort : Nat → String) (isExactPhrase : Bool)
    (exactTerm query : String) (sorted : List Photo) : List Photo :=
  if query = "" then sorted
  else if isExactPhrase && exactTerm = "" then sorted
  else
    sorted.filter (fun p =>
      let haystack := haystackOf fmtLong fmtShort p
      if isExactPhrase && !(exactTerm = "") then wordBoundaryTest exactTerm haystack
      else containsSub haystack query)

/-- Stable sort by `created_at` descending, modelling
`list.sort((a, b) => new Date(b.created_at) - new Date(a.created_at))`
(JavaScript `Array.sort` is stable). -/
def sortCreatedDesc (l : List Photo) : List Photo :=
  List.insertionSort (fun a b : Photo => b.created_at ≤ a.created_at) l

/-- Deduplication by `id` keeping first occurrences, modelling the
`Set`-guarded pushes of `src/app/page.tsx` lines 304-317. -/
def dedupByIdAux (seen : List String) : List Photo → List Photo
  | [] => []
  | p :: ps =>
    if seen.contains p.id then dedupByIdAux seen ps
    else p :: dedupByIdAux (p.id :: seen) ps

/-- Deduplication by `id` keeping first occurrences. -/
def dedupById (l : List Photo) : List Photo :=
  dedupByIdAux [] l

/-- Result merger `displayPhotos` (`src/app/page.tsx` lines 289-335):
no-search / note-search shows the full sorted snapshot; exact phrase shows
the fallback list re-sorted by date; otherwise a non-empty semantic result
wins, then a non-empty fuzzy list unioned with the fallback (deduplicated by
id), and finally the fallback alone — each re-sorted by `created_at`
descending. -/
def displayPhotos (fmtLong fmtShort : Nat → String) (hasSearch isNoteSearch isExactPhrase : Bool)
    (exactTerm query : String) (semanticPhotos : Option (List Photo))
    (sorted : List Photo) : List Photo :=
  if !hasSearch || isNoteSearch then sorted
  else if isExactPhrase then
    sortCreatedDesc (fallbackFiltered fmtLong fmtShort isExactPhrase exactTerm query sorted)
  else
    let fuzzy := fuzzyMatches isNoteSearch isExactPhrase query sorted
    let fallback := fallbackFiltered fmtLong fmtShort isExactPhrase exactTerm query sorted
    let textBranch :=
      if fuzzy.length ≠ 0 then sortCreatedDesc (dedupById (fuzzy ++ fallback))
      else sortCreatedDesc fallback
    match semanticPhotos with
    | some sp => if sp.length ≠ 0 then sortCreatedDesc sp else textBranch
    | none => textBranch

/-- Text Matcher output as the spec's Result Merger describes it (§4.4 steps
4 and 5): fuzzy results first, then fallback results not already present,
deduplicated by id, re-sorted by date; or the fallback list alone when the
fuzzy list is empty.  Stated from the spec's words as the reference point
for the semantic-soft-failure claim. -/
def textMatcherDisplay (fmtLong fmtShort : Nat → String) (exactTerm query : String)
    (sorted : List Photo) : List Photo :=
  let fuzzy := fuzzyMatches false false query sorted
  let fallback := fallbackFiltered fmtLong fmtShort false exactTerm query sorted
  if fuzzy.length ≠ 0 then sortCreatedDesc (dedupById (fuzzy ++ fallback))
  else sortCreatedDesc fallback

/-- Outcome of the semantic-search effect (`src/app/page.tsx` lines
638-653) on the `semanticPhotos` state: any thrown error (non-ok status,
network failure, JSON parse failure) is caught and stores `null`; a
successful response stores `json.photos ?? null`.  No error value escapes
to the caller. -/
def semanticStateAfter (response : Except String (Option (List Photo))) :
    Option (List Photo) :=
  match response with
  | Except.error _ => none
  | Except.ok photos => photos

/-- Idempotent insert `addPhotoIfNew` (`src/app/page.tsx` lines 90-95): the
realtime-INSERT push checks the current snapshot `prev` inside the
functional update and prepends only unseen ids. -/
def addPhotoIfNew (photo : Photo) (prev : List Photo) : List Photo :=
  if prev.any (fun p => p.id == photo.id) then prev else photo :: prev

/-- Application step of `pollForNew` (`src/app/page.tsx` lines 618-624):
the fetched rows are filtered against the ids of `refSnapshot` — the value
of `photosRef.current` read BEFORE the functional update runs — and the
survivors are prepended to `prev`, the snapshot at the time the functional
update runs.  The two can differ when another source inserts in between. -/
def pollForNewApply (data refSnapshot prev : List Photo) : List Photo :=
  let newOnes := data.filter (fun p => !(refSnapshot.map (fun q => q.id)).contains p.id)
  if newOnes.length ≠ 0 then newOnes ++ prev else prev

/-- Initial bulk-load deduplication (`src/app/page.tsx` lines 488-493):
keeps the first row for each id. -/
def uniqueById (data : List Photo) : List Photo :=
  dedupById data

/-- JavaScript object spread `{ ...p, ...u }` on one optional field: a key
present in `u` (even with value `null`, i.e. `some none`) overwrites; only
an absent key (`none`) keeps the existing value. -/
def spreadField {α : Type} (base upd : Option (Option α)) : Option (Option α) :=
  match upd with
  | none => base
  | some v => some v

/-- Record merge `{ ...p, ...u }` used by both the realtime UPDATE handler
(`src/app/page.tsx` line 542) and the enrichment poll (line 589).  The
non-optional columns `id`, `image_url`, `created_at` are always present in a
fetched row and therefore always overwritten. -/
def mergePhoto (p u : Photo) : Photo :=
  { id := u.id
    image_url := u.image_url
    created_at := u.created_at
    storage_path := spreadField p.storage_path u.storage_path
    source_url := spreadField p.source_url u.source_url
    caption := spreadField p.caption u.caption
    tags := spreadField p.tags u.tags
    colors := spreadField p.colors u.colors
    embedding := spreadField p.embedding u.embedding
    content_type := spreadField p.content_type u.content_type
    domain_tags := spreadField p.domain_tags u.domain_tags
    has_people := spreadField p.has_people u.has_people
    people_count := spreadField p.people_count u.people_count
    is_screenshot := spreadField p.is_screenshot u.is_screenshot
    vibe_tags := spreadField p.vibe_tags u.vibe_tags }

/-- Realtime UPDATE handler (`src/app/page.tsx` lines 539-544): merge the
pushed row into the record with the same id. -/
def realtimeUpdate (updated : Photo) (prev : List Photo) : List Photo :=
  prev.map (fun p => if p.id == updated.id then mergePhoto p updated else p)

/-- Pending-enrichment test (`src/app/page.tsx` lines 563-567): no tags and
no non-blank caption. -/
def isPending (p : Photo) : Bool :=
  (coalesce p.tags []).isEmpty && (trimWs (coalesce p.caption "")).isEmpty

/-- Last fetched row with a given id, modelling the `Map.set` loop of
`src/app/page.tsx` lines 585-586 (later rows overwrite earlier ones). -/
def lastById (ds : List Photo) (i : String) : Option Photo :=
  (ds.filter (fun d => d.id == i)).getLast?

/-- Merge step of the enrichment poll (`src/app/page.tsx` lines 588-590):
every snapshot record with a fetched row is merged with `{ ...p, ...row }`;
records without a fetched row are untouched. -/
def applyEnrichment (ds : List Photo) (prev : List Photo) : List Photo :=
  prev.map (fun p =>
    match lastById ds p.id with
    | some d => mergePhoto p d
    | none => p)

/-- Semantic-search endpoint pipeline (`src/unnamed/part_002` lines
194-209): rows whose `embedding` is an array are scored, filtered at
`MIN_SCORE = 0.28`, sorted descending by score (stable), truncated to
`MAX_RESULTS = 40`, and projected back to photos.  The score function
parameter stands for `cosineSimilarity(queryEmbedding, ·)`, which the
endpoint computes with floating-point square roots and is therefore kept
abstract; every claim about the pipeline holds for an arbitrary score. -/
def semanticSearchPipeline (score : Photo → ℚ) (rows : List Photo) : List Photo :=
  let scored := (rows.filter (fun p => p.embedding.join.isSome)).map (fun p => (p, score p))
  ((List.insertionSort (fun s t : Photo × ℚ => t.2 ≤ s.2)
      (scored.filter (fun s => (28 : ℚ)/100 ≤ s.2))).take 40).map (fun s => s.1)

/-- Entry of the extension-token allowlist (`src/lib/allowedEmails.ts`
lines 11-14). -/
structure TokenOwner where
  token : String
  ownerId : String
deriving DecidableEq

/-- Token allowlist (`src/lib/allowedEmails.ts` lines 11-14). -/
def tokenOwners : List TokenOwner :=
  [⟨"kb2RJVeoF_7fY-zK4ZUv-DG", "8694ca67-e244-4ad3-b5f0-9d8ac6551e92"⟩,
   ⟨"RVmm-LL2kQcT6fHGPXb4ui@", "6cf55fd2-64f7-41ee-af7e-e37019119bfb"⟩]

/-- `ownerIdForToken` (`src/lib/allowedEmails.ts` lines 16-22): a missing or
empty token (JavaScript falsy) yields `null`; otherwise the first allowlist
entry whose trimmed, lower-cased token equals the trimmed, lower-cased input
yields its owner id, and `null` when none matches. -/
def ownerIdForToken (token : Option String) : Option String :=
  match token with
  | none => none
  | some t =>
    if t = "" then none
    else
      match tokenOwners.find?
          (fun entry => lowerCase (trimWs entry.token) == lowerCase (trimWs t)) with
      | some found => some found.ownerId
      | none => none

/-- Snapshot record whose tags were already populated (for example by the
tag editor or a realtime update). -/
def pendingSnapshotRecord : Photo :=
  { id := "p1", created_at := 5, tags := some (some ["a"]) }

/-- Fetched row for the same id whose `tags` column is `null` (key present,
value null — exactly what a row fetched before enrichment finishes carries). -/
def fetchedNullTagsRow : Photo :=
  { id := "p1", created_at := 5, caption := some (some "fresh caption"), tags := some none }

/-- C1, counterexample: the claim says a fetched row whose `tags` field is
`null` leaves existing non-empty tags intact, but the merge is the object
spread `{ ...p, ...row }`, and a key present with value `null` overwrites.
Merging `fetchedNullTagsRow` (tags `null`) over `pendingSnapshotRecord`
(tags `["a"]`) yields `null` tags in both the enrichment-poll merge and the
realtime UPDATE merge, not the original `["a"]`. -/
theorem enrichment_merge_null_tags_counterexample :
    pendingSnapshotRecord.tags = some (some ["a"]) ∧
    fetchedNullTagsRow.tags = some none ∧
    (applyEnrichment [fetchedNullTagsRow] [pendingSnapshotRecord]).map (fun p => p.tags) =
      [some none] ∧
    (realtimeUpdate fetchedNullTagsRow [pendingSnapshotRecord]).map (fun p => p.tags) =
      [some none] := by
  decide

/-- C1, amended: fields ABSENT from the fetched row (key not present) never
erase existing values — this holds field-wise for every optional column —
but a field present with value `null` always overwrites, so a fetched row
with `tags: null` does erase existing non-empty tags. -/
theorem mergePhoto_absent_fields_preserved (p u : Photo) :
    (u.caption = none → (mergePhoto p u).caption = p.caption) ∧
    (u.tags = none → (mergePhoto p u).tags = p.tags) ∧
    (u.colors = none → (mergePhoto p u).colors = p.colors) ∧
    (u.embedding = none → (mergePhoto p u).embedding = p.embedding) ∧
    (u.content_type = none → (mergePhoto p u).content_type = p.content_type) ∧
    (u.domain_tags = none → (mergePhoto p u).domain_tags = p.domain_tags) ∧
    (u.has_people = none → (mergePhoto p u).has_people = p.has_people) ∧
    (u.people_count = none → (mergePhoto p u).people_count = p.people_count) ∧
    (u.is_screenshot = none → (mergePhoto p u).is_screenshot = p.is_screenshot) ∧
    (u.vibe_tags = none → (mergePhoto p u).vibe_tags = p.vibe_tags) ∧
    (u.storage_path = none → (mergePhoto p u).storage_path = p.storage_path) ∧
    (u.source_url = none → (mergePhoto p u).source_url = p.source_url) ∧
    (∀ v, u.tags = some v → (mergePhoto p u).tags = some v) := by
  refine ⟨?_, ?_, ?_, ?_, ?_, ?_, ?_, ?_, ?_, ?_, ?_, ?_, ?_⟩ <;>
    · intros
      simp [mergePhoto, spreadField, *]

/-- C1, witness for the amended theorem: merging a row that does not carry
the `tags` key preserves the existing tags `["a"]`. -/
theorem mergePhoto_absent_fields_preserved_witness :
    (mergePhoto pendingSnapshotRecord { id := "p1" }).tags = some (some ["a"]) :=
  ((mergePhoto_absent_fields_preserved pendingSnapshotRecord { id := "p1" }).2.1 rfl).trans rfl

/-- Photo delivered near-simultaneously by the realtime push and the
new-records poll. -/
def racePhoto : Photo :=
  { id := "r1", created_at := 9 }

/-- C2: the claim demands that inserting an id already present in the
Snapshot leaves it unchanged under EVERY interleaving of the three insert
sources, but `pollForNew` filters fetched rows against `photosRef.current`
(a snapshot read before its functional update runs) instead of the `prev`
inside the update.  In the interleaving where the realtime push inserts
`racePhoto` after the poll has read the (still empty) ref and before the
poll's functional update runs, the poll prepends the same id again: the
snapshot ends as two copies of `racePhoto`.  The push path itself
(`addPhotoIfNew`) is idempotent, which shows the intent of the code. -/
theorem pollForNew_stale_ref_duplicates :
    addPhotoIfNew racePhoto [] = [racePhoto] ∧
    pollForNewApply [racePhoto] [] [racePhoto] = [racePhoto, racePhoto] ∧
    ((pollForNewApply [racePhoto] [] [racePhoto]).filter
      (fun p => p.id == racePhoto.id)).length = 2 ∧
    addPhotoIfNew racePhoto [racePhoto] = [racePhoto] := by
  decide

/-- C8: `similarity a b` is exactly `1 - levenshtein(a,b)/max(len a, len b)`
(with the explicit both-empty edge case returning `0`, not a NaN fallback),
always lies in `[0, 1]`, equals `1` on every non-empty string paired with
itself, and the implementation's `levenshtein` computes the classical
unit-cost edit distance (Mathlib's `levenshtein` with `defaultCost`). -/
theorem similarity_contract :
    (∀ a b : String, similarity a b =
      if max a.length b.length = 0 then 0
      else 1 - (levenshtein a b : ℚ) / ((max a.length b.length : Nat) : ℚ)) ∧
    (∀ a b : String, 0 ≤ similarity a b ∧ similarity a b ≤ 1) ∧
    similarity "" "" = 0 ∧
    (∀ x : String, x ≠ "" → similarity x x = 1) ∧
    (∀ a b : String, levenshtein a b = classicalLevenshtein a.data b.data) := by
  refine ⟨fun a b => rfl, fun a b => ?_, rfl, fun x hx => ?_, levenshtein_eq_classical⟩
  · by_cases h : max a.length b.length = 0
    · constructor <;> simp [similarity, h]
    · have hlen : (0 : ℚ) < ((max a.length b.length : Nat) : ℚ) := by
        exact_mod_cast Nat.pos_of_ne_zero h
      have hd : ((levenshtein a b : Nat) : ℚ) ≤ ((max a.length b.length : Nat) : ℚ) :=
        Nat.cast_le.mpr (levenshtein_le_max a b)
      have hd0 : (0 : ℚ) ≤ ((levenshtein a b : Nat) : ℚ) := Nat.cast_nonneg _
      have hdiv1 : ((levenshtein a b : Nat) : ℚ) / ((max a.length b.length : Nat) : ℚ) ≤ 1 :=
        (div_le_one hlen).mpr hd
      have hdiv0 : 0 ≤ ((levenshtein a b : Nat) : ℚ) / ((max a.length b.length : Nat) : ℚ) :=
        div_nonneg hd0 (le_of_lt hlen)
      constructor
      · simp only [similarity, h, if_false]
        linarith
      · simp only [similarity, h, if_false]
        linarith
  · have hx0 : x.length ≠ 0 := fun h0 => hx (String.ext (List.length_eq_zero.mp h0))
    simp [similarity, levenshtein, hx0]

/-- C8, witness: the trivial bound and self-similarity instances at the
non-empty string "abc". -/
theorem similarity_contract_witness :
    Vault.similarity "abc" "abc" = 1 :=
  similarity_contract.2.2.2.1 "abc" (by decide)

/-- C9: `similarity` is symmetric in its two arguments, because the edit
distance is symmetric and so is the maximum of the two lengths. -/
theorem similarity_symmetric (a b : String) : similarity a b = similarity b a := by
  simp only [similarity]
  rw [levenshtein_symm, max_comm a.length b.length]

/-- C10: `ownerIdForToken` returns `null` for a missing or empty token,
returns the owner id of the FIRST allowlist entry whose token matches the
supplied token after trimming whitespace and lower-casing both sides,
returns `null` when no entry matches, and two tokens differing only in
case or surrounding whitespace always resolve identically. -/
theorem ownerIdForToken_contract :
    ownerIdForToken none = none ∧
    ownerIdForToken (some "") = none ∧
    (∀ t e, t ≠ "" →
      tokenOwners.find?
        (fun entry => lowerCase (trimWs entry.token) == lowerCase (trimWs t)) = some e →
      ownerIdForToken (some t) = some e.ownerId) ∧
    (∀ t, t ≠ "" →
      tokenOwners.find?
        (fun entry => lowerCase (trimWs entry.token) == lowerCase (trimWs t)) = none →
      ownerIdForToken (some t) = none) ∧
    (∀ t₁ t₂, t₁ ≠ "" → t₂ ≠ "" → lowerCase (trimWs t₁) = lowerCase (trimWs t₂) →
      ownerIdForToken (some t₁) = ownerIdForToken (some t₂)) := by
  refine ⟨rfl, rfl, ?_, ?_, ?_⟩
  · intro t e ht hf
    simp [ownerIdForToken, ht, hf]
  · intro t ht hf
    simp [ownerIdForToken, ht, hf]
  · intro t₁ t₂ h1 h2 heq
    have hfun : (fun entry : TokenOwner =>
          lowerCase (trimWs entry.token) == lowerCase (trimWs t₁)) =
        (fun entry : TokenOwner =>
          lowerCase (trimWs entry.token) == lowerCase (trimWs t₂)) := by
      funext entry
      rw [heq]
    simp only [ownerIdForToken, h1, h2, if_neg, hfun]

/-- C10, witness: an upper-cased, whitespace-padded variant of the first
allowlist token resolves to that entry's owner id. -/
theorem ownerIdForToken_contract_witness :
    Vault.ownerIdForToken (some " KB2RJVEOF_7FY-ZK4ZUV-DG ") =
      some "8694ca67-e244-4ad3-b5f0-9d8ac6551e92" :=
  ownerIdForToken_contract.2.2.1 " KB2RJVEOF_7FY-ZK4ZUV-DG "
    ⟨"kb2RJVeoF_7fY-zK4ZUv-DG", "8694ca67-e244-4ad3-b5f0-9d8ac6551e92"⟩
    (by decide) (by decide)

/-- Long-form date rendering used in concrete scenarios (the formatter is an
external collaborator; any rendering without query text works the same). -/
def fmtLong0 : Nat → String := fun _ => "january 1, 2024"

/-- Short-form date rendering used in concrete scenarios. -/
def fmtShort0 : Nat → String := fun _ => "jan 1, 2024"

/-- Record tagged `["cozy", "knit"]` — the substring hit of the end-to-end
scenario. -/
def photoA : Photo :=
  { id := "a", created_at := 3, tags := some (some ["cozy", "knit"]) }

/-- Record captioned `"a kozy evening"` — the would-be fuzzy hit of the
end-to-end scenario. -/
def photoB : Photo :=
  { id := "b", created_at := 2, caption := some (some "a kozy evening") }

/-- Unrelated record of the end-to-end scenario. -/
def photoC : Photo :=
  { id := "c", created_at := 1, caption := some (some "mountain lake") }

/-- C4: for a free-text query shorter than 3 characters the fuzzy list is
empty REGARDLESS of the similarity function (so similarity is never
consulted), and the displayed result set falls through to the
substring-only fallback filter over the concatenated haystack, re-sorted by
date. -/
theorem short_query_skips_fuzzy (fmtLong fmtShort : Nat → String)
    (exactTerm query : String) (sorted : List Photo) (hq : query.length < 3) :
    (∀ simFn : String → String → ℚ,
      fuzzyMatchesWith simFn false false query sorted = []) ∧
    displayPhotos fmtLong fmtShort true false false exactTerm query none sorted =
      sortCreatedDesc (fallbackFiltered fmtLong fmtShort false exactTerm query sorted) := by
  have hfz : ∀ simFn : String → String → ℚ,
      fuzzyMatchesWith simFn false false query sorted = [] := by
    intro simFn
    simp [fuzzyMatchesWith, hq]
  refine ⟨hfz, ?_⟩
  simp [displayPhotos, fuzzyMatches, hfz similarity]

/-- C4, witness: the 2-character query "ab" against the three-record
snapshot produces no fuzzy results and displays exactly the sorted fallback
list. -/
theorem short_query_skips_fuzzy_witness :
    Vault.fuzzyMatchesWith Vault.similarity false false "ab" [photoA, photoB, photoC] = [] ∧
    Vault.displayPhotos fmtLong0 fmtShort0 true false false "" "ab" none
        [photoA, photoB, photoC] =
      sortCreatedDesc (fallbackFiltered fmtLong0 fmtShort0 false "" "ab"
        [photoA, photoB, photoC]) :=
  have h := short_query_skips_fuzzy fmtLong0 fmtShort0 "" "ab" [photoA, photoB, photoC]
    (by decide)
  ⟨h.1 similarity, h.2⟩

/-- C5: for an exact-phrase query with a non-empty term, the fallback list
is exactly the records whose haystack (searchable fields plus the two date
renderings) passes the word-boundary regex test for the literal phrase; the
display in exact-phrase mode is that list re-sorted by date, ignoring both
the fuzzy list and any semantic results; and the phrase "red shoes" matches
the haystack "i love red shoes today" but not "i love redshoes today". -/
theorem exact_phrase_whole_word (fmtLong fmtShort : Nat → String)
    (exactTerm query : String) (semanticPhotos : Option (List Photo))
    (sorted : List Photo) (hterm : exactTerm ≠ "") (hq : query ≠ "") :
    fallbackFiltered fmtLong fmtShort true exactTerm query sorted =
      sorted.filter (fun p => wordBoundaryTest exactTerm (haystackOf fmtLong fmtShort p)) ∧
    displayPhotos fmtLong fmtShort true false true exactTerm query semanticPhotos sorted =
      sortCreatedDesc
        (sorted.filter (fun p => wordBoundaryTest exactTerm (haystackOf fmtLong fmtShort p))) ∧
    wordBoundaryTest "red shoes" "i love red shoes today" = true ∧
    wordBoundaryTest "red shoes" "i love redshoes today" = false := by
  have hfb : fallbackFiltered fmtLong fmtShort true exactTerm query sorted =
      sorted.filter (fun p => wordBoundaryTest exactTerm (haystackOf fmtLong fmtShort p)) := by
    simp [fallbackFiltered, hq, hterm]
  refine ⟨hfb, ?_, by decide, by decide⟩
  simp [displayPhotos, hfb]

/-- C5, witness: the whole theorem applied at the phrase "red shoes", the
quoted query, an arbitrary semantic result and the empty snapshot. -/
theorem exact_phrase_whole_word_witness :
    Vault.wordBoundaryTest "red shoes" "i love red shoes today" = true ∧
    Vault.wordBoundaryTest "red shoes" "i love redshoes today" = false :=
  ⟨(exact_phrase_whole_word fmtLong0 fmtShort0 "red shoes" "\"red shoes\"" none []
      (by decide) (by decide)).2.2.1,
   (exact_phrase_whole_word fmtLong0 fmtShort0 "red shoes" "\"red shoes\"" none []
      (by decide) (by decide)).2.2.2⟩

/-- C7: every failed semantic-search request (thrown error — non-ok status,
network or parse failure — or a response without a photos array) leaves the
semantic state `null`; with a `null` semantic state the displayed result set
is exactly the Text Matcher output (fuzzy-then-fallback union when the
fuzzy list is non-empty, fallback alone otherwise).  The catch handler only
logs, so no error value reaches the display path at all. -/
theorem semantic_soft_failure (fmtLong fmtShort : Nat → String)
    (exactTerm query msg : String) (sorted : List Photo) :
    semanticStateAfter (Except.error msg) = none ∧
    semanticStateAfter (Except.ok none) = none ∧
    displayPhotos fmtLong fmtShort true false false exactTerm query
        (semanticStateAfter (Except.error msg)) sorted =
      textMatcherDisplay fmtLong fmtShort exactTerm query sorted := by
  exact ⟨rfl, rfl, rfl⟩

/-- Unfolded form of the semantic-search pipeline. -/
theorem semanticSearchPipeline_eq (score : Photo → ℚ) (rows : List Photo) :
    semanticSearchPipeline score rows =
      ((List.insertionSort (fun s t : Photo × ℚ => t.2 ≤ s.2)
        (((rows.filter (fun p => p.embedding.join.isSome)).map
            (fun p => (p, score p))).filter
          (fun s => (28 : ℚ)/100 ≤ s.2))).take 40).map (fun s => s.1) := rfl

/-- C6: for any scoring of the candidate rows (the records with a non-null
embedding array), the semantic endpoint's result has length
`min 40 (count of candidates scoring ≥ 0.28)`, is sorted descending by
score, contains only candidates scoring at least the `0.28` threshold, and
— whenever at most 40 candidates pass the threshold — contains EVERY
candidate passing it.  The cosine-similarity scoring itself is the
endpoint's floating-point computation and enters as the abstract `score`
parameter. -/
theorem semantic_threshold_cap (score : Photo → ℚ) (rows : List Photo) :
    (semanticSearchPipeline score rows).length =
      min 40 ((rows.filter (fun p => p.embedding.join.isSome)).filter
        (fun p => (28 : ℚ)/100 ≤ score p)).length ∧
    List.Sorted (fun a b : Photo => score b ≤ score a) (semanticSearchPipeline score rows) ∧
    (∀ p ∈ semanticSearchPipeline score rows,
      p ∈ rows ∧ p.embedding.join.isSome ∧ (28 : ℚ)/100 ≤ score p) ∧
    (((rows.filter (fun p => p.embedding.join.isSome)).filter
        (fun p => (28 : ℚ)/100 ≤ score p)).length ≤ 40 →
      ∀ p ∈ rows.filter (fun p => p.embedding.join.isSome),
        (28 : ℚ)/100 ≤ score p → p ∈ semanticSearchPipeline score rows) := by
  haveI hT : IsTotal (Photo × ℚ) (fun s t => t.2 ≤ s.2) := ⟨fun a b => le_total b.2 a.2⟩
  haveI hTr : IsTrans (Photo × ℚ) (fun s t => t.2 ≤ s.2) :=
    ⟨fun a b c hab hbc => le_trans hbc hab⟩
  have hcomm : (((rows.filter (fun p => p.embedding.join.isSome)).map
        (fun p => (p, score p))).filter (fun s => (28 : ℚ)/100 ≤ s.2)) =
      ((rows.filter (fun p => p.embedding.join.isSome)).filter
        (fun p => (28 : ℚ)/100 ≤ score p)).map (fun p => (p, score p)) := by
    rw [List.filter_map]
    rfl
  have hsnd : ∀ s ∈ ((rows.filter (fun p => p.embedding.join.isSome)).map
        (fun p => (p, score p))).filter (fun s => (28 : ℚ)/100 ≤ s.2), s.2 = score s.1 := by
    intro s hs
    rcases List.mem_map.mp (List.mem_filter.mp hs).1 with ⟨p, _, rfl⟩
    rfl
  refine ⟨?_, ?_, ?_, ?_⟩
  · rw [semanticSearchPipeline_eq, List.length_map, List.length_take,
      List.length_insertionSort, hcomm, List.length_map]
  · rw [semanticSearchPipeline_eq]
    have hsorted := List.sorted_insertionSort (fun s t : Photo × ℚ => t.2 ≤ s.2)
      (((rows.filter (fun p => p.embedding.join.isSome)).map
          (fun p => (p, score p))).filter (fun s => (28 : ℚ)/100 ≤ s.2))
    have htake : List.Pairwise (fun s t : Photo × ℚ => t.2 ≤ s.2)
        ((List.insertionSort (fun s t : Photo × ℚ => t.2 ≤ s.2)
          (((rows.filter (fun p => p.embedding.join.isSome)).map
              (fun p => (p, score p))).filter (fun s => (28 : ℚ)/100 ≤ s.2))).take 40) :=
      hsorted.sublist (List.take_sublist 40 _)
    rw [List.Sorted, List.pairwise_map]
    refine htake.imp_of_mem ?_
    intro s t hs ht hle
    have hs2 := hsnd s ((List.mem_insertionSort _).mp ((List.take_sublist 40 _).subset hs))
    have ht2 := hsnd t ((List.mem_insertionSort _).mp ((List.take_sublist 40 _).subset ht))
    rw [hs2, ht2] at hle
    exact hle
  · intro p hp
    rw [semanticSearchPipeline_eq] at hp
    rcases List.mem_map.mp hp with ⟨s, hs, rfl⟩
    have hsl := (List.mem_insertionSort _).mp ((List.take_sublist 40 _).subset hs)
    have hs2 := hsnd s hsl
    rcases List.mem_filter.mp hsl with ⟨hsmem, hkeep⟩
    rcases List.mem_map.mp hsmem with ⟨p, hpc, rfl⟩
    rcases List.mem_filter.mp hpc with ⟨hprows, hpemb⟩
    refine ⟨hprows, hpemb, ?_⟩
    simpa using hkeep
  · intro hle p hpc hscore
    rw [semanticSearchPipeline_eq]
    have hlen : (List.insertionSort (fun s t : Photo × ℚ => t.2 ≤ s.2)
        (((rows.filter (fun p => p.embedding.join.isSome)).map
            (fun p => (p, score p))).filter (fun s => (28 : ℚ)/100 ≤ s.2))).length ≤ 40 := by
      rw [List.length_insertionSort, hcomm, List.length_map]
      exact hle
    rw [List.take_of_length_le hlen]
    refine List.mem_map.mpr ⟨(p, score p), ?_, rfl⟩
    refine (List.mem_insertionSort _).mpr ?_
    refine List.mem_filter.mpr ⟨List.mem_map.mpr ⟨p, hpc, rfl⟩, ?_⟩
    simpa using hscore

/-- Enriched row whose (one-dimensional) embedding scores `1` against the
witness scoring. -/
def embA : Photo :=
  { id := "e1", created_at := 1, embedding := some (some [1]) }

/-- Enriched row whose embedding scores `0`, below the `0.28` threshold. -/
def embB : Photo :=
  { id := "e2", created_at := 2, embedding := some (some [0]) }

/-- Row without an embedding; never a semantic candidate. -/
def embC : Photo :=
  { id := "e3", created_at := 3 }

/-- C6, witness: with the head-of-embedding scoring on three concrete rows
(scores 1, 0, and no embedding), exactly one candidate passes the `0.28`
threshold: the pipeline returns a single record and it is `embA`. -/
theorem semantic_threshold_cap_witness :
    (Vault.semanticSearchPipeline (fun p => (Vault.coalesce p.embedding []).headD 0)
        [embA, embB, embC]).length = 1 ∧
    embA ∈ Vault.semanticSearchPipeline (fun p => (Vault.coalesce p.embedding []).headD 0)
        [embA, embB, embC] := by
  have h := semantic_threshold_cap (fun p => (Vault.coalesce p.embedding []).headD 0)
    [embA, embB, embC]
  have hfl : (([embA, embB, embC].filter (fun p => p.embedding.join.isSome)).filter
      (fun p => (28 : ℚ)/100 ≤ (Vault.coalesce p.embedding []).headD 0)).length = 1 := by
    norm_num [embA, embB, embC, coalesce, List.filter]
  constructor
  · rw [h.1, hfl]
    decide
  · refine h.2.2.2 (by rw [hfl]; norm_num) embA ?_ ?_
    · simp [embA, embB, embC, List.filter]
    · norm_num [embA, coalesce]

theorem similarity_cozy_caption : similarity "cozy" "a kozy evening" = 3/14 := by
  have hlev : levenshtein "cozy" "a kozy evening" = 11 := by decide
  have hlen : max "cozy".length "a kozy evening".length = 14 := by decide
  simp only [similarity, hlev, hlen]
  norm_num

theorem similarity_cozy_mountain : similarity "cozy" "mountain lake" = 1/13 := by
  have hlev : levenshtein "cozy" "mountain lake" = 12 := by decide
  have hlen : max "cozy".length "mountain lake".length = 13 := by decide
  simp only [similarity, hlev, hlen]
  norm_num

theorem similarity_cozy_knit : similarity "cozy" "knit" = 0 := by
  have hlev : levenshtein "cozy" "knit" = 4 := by decide
  have hlen : max "cozy".length "knit".length = 4 := by decide
  simp only [similarity, hlev, hlen]
  norm_num

theorem similarity_cozy_kozy : similarity "cozy" "kozy" = 3/4 := by
  have hlev : levenshtein "cozy" "kozy" = 1 := by decide
  have hlen : max "cozy".length "kozy".length = 4 := by decide
  simp only [similarity, hlev, hlen]
  norm_num

theorem fuzzyScore_cozy_photoA : fuzzyScoreWith similarity "cozy" photoA = 1 := by
  have htok : tokensOf photoA = ["", "cozy", "knit", "", "", ""] := by decide
  have hc1 : containsSub "cozy" "cozy" = true := by decide
  have hc2 : containsSub "knit" "cozy" = false := by decide
  rw [fuzzyScoreWith, htok]
  simp [hc1, hc2, similarity_cozy_knit, max_def]

theorem fuzzyScore_cozy_photoB : fuzzyScoreWith similarity "cozy" photoB = 3/14 := by
  have htok : tokensOf photoB = ["a kozy evening", "", "", ""] := by decide
  have hc1 : containsSub "a kozy evening" "cozy" = false := by decide
  rw [fuzzyScoreWith, htok]
  simp [hc1, similarity_cozy_caption, max_def]
  norm_num

theorem fuzzyScore_cozy_photoC : fuzzyScoreWith similarity "cozy" photoC = 1/13 := by
  have htok : tokensOf photoC = ["mountain lake", "", "", ""] := by decide
  have hc1 : containsSub "mountain lake" "cozy" = false := by decide
  rw [fuzzyScoreWith, htok]
  simp [hc1, similarity_cozy_mountain, max_def]

theorem fuzzyMatches_cozy :
    fuzzyMatches false false "cozy" [photoA, photoB, photoC] = [photoA] := by
  rw [fuzzyMatches, fuzzyMatchesWith, if_neg (by decide)]
  simp only [List.map]
  rw [fuzzyScore_cozy_photoA, fuzzyScore_cozy_photoB, fuzzyScore_cozy_photoC]
  have hf1 : ((42 : ℚ)/100 ≤ 1) := by norm_num
  have hf2 : ¬ ((42 : ℚ)/100 ≤ 3/14) := by norm_num
  have hf3 : ¬ ((42 : ℚ)/100 ≤ 1/13) := by norm_num
  have hf4 : ¬ ((42 : ℚ)/100 ≤ (13 : ℚ)⁻¹) := by norm_num
  simp [List.filter, hf1, hf2, hf3, hf4, List.insertionSort, List.orderedInsert]

theorem fallbackFiltered_cozy :
    fallbackFiltered fmtLong0 fmtShort0 false "" "cozy" [photoA, photoB, photoC] = [photoA] := by
  decide

theorem sortCreatedDesc_scenario :
    sortCreatedDesc [photoA, photoB, photoC] = [photoA, photoB, photoC] := by
  decide

theorem displayPhotos_cozy :
    displayPhotos fmtLong0 fmtShort0 true false false "" "cozy" none
      (sortCreatedDesc [photoA, photoB, photoC]) = [photoA] := by
  rw [sortCreatedDesc_scenario]
  simp only [displayPhotos]
  rw [fuzzyMatches_cozy, fallbackFiltered_cozy]
  simp
  decide

/-- C3, counterexample: for the free-text query "cozy" against the
three-record snapshot of the scenario, the merged result is `[photoA]`
alone — the record captioned "a kozy evening" is NOT in the result, because
the matcher treats the whole caption as one token (similarity 3/14 against
"cozy", below the 0.42 threshold) rather than word-tokenizing it and
scoring `similarity "cozy" "kozy" = 0.75`. -/
theorem cozy_query_counterexample :
    displayPhotos fmtLong0 fmtShort0 true false false "" "cozy" none
        (sortCreatedDesc [photoA, photoB, photoC]) = [photoA] ∧
    photoB ∉ displayPhotos fmtLong0 fmtShort0 true false false "" "cozy" none
        (sortCreatedDesc [photoA, photoB, photoC]) := by
  refine ⟨displayPhotos_cozy, ?_⟩
  rw [displayPhotos_cozy]
  decide

/-- C3, amended: the Text Matcher's tokens are whole searchable fields, not
words; for the query "cozy" the tagged record scores `1.0` (substring hit)
while the record captioned "a kozy evening" scores
`similarity "cozy" "a kozy evening" = 3/14 ≈ 0.21` — the word-level value
`similarity "cozy" "kozy" = 0.75` is never computed — which is below the
`0.42` threshold, so the merged result contains exactly the tagged record,
and the unrelated record is likewise excluded. -/
theorem cozy_query_field_token_matching :
    fuzzyScoreWith similarity "cozy" photoA = 1 ∧
    fuzzyScoreWith similarity "cozy" photoB = 3/14 ∧
    similarity "cozy" "kozy" = 3/4 ∧
    ((3 : ℚ)/14 < 42/100) ∧
    fuzzyMatches false false "cozy" [photoA, photoB, photoC] = [photoA] ∧
    displayPhotos fmtLong0 fmtShort0 true false false "" "cozy" none
        (sortCreatedDesc [photoA, photoB, photoC]) = [photoA] := by
  refine ⟨fuzzyScore_cozy_photoA, fuzzyScore_cozy_photoB, similarity_cozy_kozy, by norm_num,
    fuzzyMatches_cozy, displayPhotos_cozy⟩

end Vault
